import Mathlib

/-!
Verification of the axis-size resolution and tensor-interface validation engine
of the bioimageio_rs repository.

The definitions below are a shallow embedding of
`bioimg_runtime/src/axis_size_resolver.rs` and
`bioimg_runtime/src/model_interface.rs`, together with the parts of the
`bioimg_spec` data model that those two files consume.  Rust `usize` values
are modelled as `Nat`, `HashMap`/`BTreeMap` as association lists with unique
keys, `ordermap::OrderSet` as an insertion-ordered `List`, and recursion whose
termination the Rust code does not establish syntactically (the resolver) is
modelled with explicit fuel, with `none` meaning fuel exhaustion.
-/

/-- Lexicographic comparison of char lists by code point; models the
lexicographic byte order Rust uses for `String` (identical on ASCII ids). -/
def ltCharList : List Char → List Char → Bool
  | [], [] => false
  | [], _ :: _ => true
  | _ :: _, [] => false
  | a :: as, b :: bs =>
    if a.toNat < b.toNat then true
    else if b.toNat < a.toNat then false
    else ltCharList as bs

/-- Lexicographic order on strings, models Rust `String: Ord`. -/
def ltStr (a b : String) : Bool := ltCharList a.data b.data

/-- QualifiedAxisId from `bioimg_spec` (`axis_size.rs`): a compound key
naming one axis of one tensor.  Tensor and axis identifiers are restricted
identifier strings; their wrapper types are modelled as plain `String`. -/
structure QualifiedAxisId where
  tensor_id : String
  axis_id : String
deriving DecidableEq, Repr

/-- Lexicographic order on `QualifiedAxisId` by `(tensor_id, axis_id)`,
models the derived `Ord` used by the resolver's `BTreeMap`. -/
def QualifiedAxisId.lt (a b : QualifiedAxisId) : Bool :=
  ltStr a.tensor_id b.tensor_id ||
    (a.tensor_id == b.tensor_id && ltStr a.axis_id b.axis_id)

/-- Modelled from the spec: the `Display` impl of `QualifiedAxisId` is in
`axis_size.rs`, which is not under `src/`; the spec renders ids as plain
names in a reference chain, so an id is rendered from its two components. -/
def QualifiedAxisId.display (q : QualifiedAxisId) : String :=
  q.tensor_id ++ "." ++ q.axis_id

/-- Modelled from the spec: `ParameterizedAxisSize` lives in `axis_size.rs`,
not under `src/`; the spec says `min` is a non-negative integer and `step` a
positive integer, describing the family min, min+step, min+2*step, ... -/
structure ParameterizedAxisSize where
  min : Nat
  step : {n : Nat // 0 < n}
deriving DecidableEq, Repr

/-- Modelled from the spec: a size reference carries a target qualified id
plus an offset; the offset is a plain integer field never consulted by the
resolver (`axis_size.rs` is not under `src/`). -/
structure AxisSizeReference where
  qualified_axis_id : QualifiedAxisId
  offset : Nat
deriving DecidableEq, Repr

/-- Modelled from the spec: `AnyAxisSize` from `axis_size.rs` (not under
`src/`) — the size of an axis as supplied by a description: fixed extent,
parameterized family, or reference to another axis. -/
inductive AnyAxisSize where
  | Reference (size_ref : AxisSizeReference)
  | Parameterized (p : ParameterizedAxisSize)
  | Fixed (size : Nat)
deriving DecidableEq, Repr

/-- ResolvedAxisSize: output alphabet of resolution, only Fixed or
Parameterized (`axis_size.rs`, mirrored by the spec). -/
inductive ResolvedAxisSize where
  | Fixed (size : Nat)
  | Parameterized (p : ParameterizedAxisSize)
deriving DecidableEq, Repr

/-- Conversion used by `SlotResolver::new` (`resolved_size.into()`). -/
def AnyAxisSize.toResolved : AnyAxisSize → Option ResolvedAxisSize
  | .Reference _ => none
  | .Parameterized p => some (.Parameterized p)
  | .Fixed f => some (.Fixed f)

/-- Embeds `ResolvedAxisSizeExt::is_compatible_with_extent` from
`axis_size_resolver.rs`: Fixed matches exactly; Parameterized requires
`extent >= min` and `(extent - min) % step == 0`. -/
def ResolvedAxisSize.is_compatible_with_extent : ResolvedAxisSize → Nat → Bool
  | .Fixed fixed, extent => fixed == extent
  | .Parameterized p, extent =>
    if extent < p.min then false
    else decide ((extent - p.min) % p.step.val = 0)

/-- Variant of `is_compatible_with_extent` in which the two partial machine
operations of the Rust body (the subtraction `extent - min`, which panics on
underflow, and the remainder `% step`, which panics on a zero divisor) are
modelled as checked operations returning `none` on the would-panic case. -/
def ResolvedAxisSize.compat_checked : ResolvedAxisSize → Nat → Option Bool
  | .Fixed fixed, extent => some (fixed == extent)
  | .Parameterized p, extent =>
    if extent < p.min then some false
    else
      match (if p.min ≤ extent then some (extent - p.min) else none) with
      | none => none
      | some d =>
        match (if p.step.val = 0 then none else some (d % p.step.val)) with
        | none => none
        | some r => some (decide (r = 0))

/-- Association-list map keyed by `QualifiedAxisId`; models both the
`HashMap` of resolved axes and the `BTreeMap` of unresolved axes (only
lookup, insert, erase and greatest-key are consumed by the source). -/
abbrev AxisMap (α : Type) := List (QualifiedAxisId × α)

/-- Lookup in an `AxisMap`. -/
def AxisMap.lookup {α : Type} (k : QualifiedAxisId) : AxisMap α → Option α
  | [] => none
  | (k2, v) :: rest => if k2 = k then some v else AxisMap.lookup k rest

/-- Insert into an `AxisMap`, replacing any existing binding of the key
(the map semantics of both `HashMap::insert` and `BTreeMap::insert`). -/
def AxisMap.insert {α : Type} (k : QualifiedAxisId) (v : α) : AxisMap α → AxisMap α
  | [] => [(k, v)]
  | (k2, v2) :: rest =>
    if k2 = k then (k, v) :: rest else (k2, v2) :: AxisMap.insert k v rest

/-- Remove a key from an `AxisMap` (`BTreeMap::remove`). -/
def AxisMap.erase {α : Type} (k : QualifiedAxisId) (m : AxisMap α) : AxisMap α :=
  m.filter (fun p => !(p.1 == k))

/-- Greatest key of an `AxisMap` under `QualifiedAxisId.lt`; models
`BTreeMap::last_key_value` (the maps the source builds have unique keys). -/
def AxisMap.maxKey {α : Type} : AxisMap α → Option QualifiedAxisId
  | [] => none
  | (k, _) :: rest =>
    match AxisMap.maxKey rest with
    | none => some k
    | some k2 => if QualifiedAxisId.lt k k2 then some k2 else some k

/-- Keys of an `AxisMap`. -/
def AxisMap.keys {α : Type} (m : AxisMap α) : List QualifiedAxisId :=
  m.map Prod.fst

/-- Error type of the resolver (`AxisSizeResolutionError` in
`axis_size_resolver.rs`).  The `Unresolvable` payload is the `OrderSet` of
visited ids, modelled as an insertion-ordered duplicate-free list. -/
inductive AxisSizeResolutionError where
  | Loop (id : QualifiedAxisId)
  | Unresolvable (visited : List QualifiedAxisId)
  | DuplicateId (id : QualifiedAxisId)
  | ParameterizedNotAllowed
deriving DecidableEq, Repr

/-- Renders the visited chain of an `Unresolvable` error: the source walks
the set with a peekable iterator, writing ` -> ` between consecutive ids. -/
def renderChain : List QualifiedAxisId → String
  | [] => ""
  | [x] => x.display
  | x :: y :: rest => x.display ++ " -> " ++ renderChain (y :: rest)

/-- Embeds the `Display` impl of `AxisSizeResolutionError`. -/
def AxisSizeResolutionError.display : AxisSizeResolutionError → String
  | .Loop id => "Loop detected when trying to resolve reference to " ++ id.display
  | .Unresolvable visited =>
      "Chain of axis references is unresolvable: " ++ renderChain visited
  | .DuplicateId id => "Multiple axes with same ID: " ++ id.display
  | .ParameterizedNotAllowed => "Parameterized size not allowed"

/-- State of the resolver (`SlotResolver` in `axis_size_resolver.rs`):
already-concrete axes and axes still described by a reference. -/
structure SlotResolver where
  resolved_axes : AxisMap ResolvedAxisSize
  unresolved_axes : AxisMap AxisSizeReference
deriving DecidableEq, Repr

/-- Loop body of `SlotResolver::new`: partition the input pairs into the two
maps; inserting a key already present in the map being inserted into fails
with `DuplicateId` (note the source only consults the map the entry lands
in, not the other one). -/
def SlotResolver.newFrom (resolved : AxisMap ResolvedAxisSize)
    (unresolved : AxisMap AxisSizeReference) :
    List (QualifiedAxisId × AnyAxisSize) →
    Except AxisSizeResolutionError SlotResolver
  | [] => .ok ⟨resolved, unresolved⟩
  | (qual_id, inp_size) :: rest =>
    match inp_size with
    | .Reference size_ref =>
      if (AxisMap.lookup qual_id unresolved).isSome then
        .error (.DuplicateId qual_id)
      else
        SlotResolver.newFrom resolved (AxisMap.insert qual_id size_ref unresolved) rest
    | .Parameterized p =>
      if (AxisMap.lookup qual_id resolved).isSome then
        .error (.DuplicateId qual_id)
      else
        SlotResolver.newFrom (AxisMap.insert qual_id (.Parameterized p) resolved) unresolved rest
    | .Fixed f =>
      if (AxisMap.lookup qual_id resolved).isSome then
        .error (.DuplicateId qual_id)
      else
        SlotResolver.newFrom (AxisMap.insert qual_id (.Fixed f) resolved) unresolved rest

/-- Embeds `SlotResolver::new`. -/
def SlotResolver.new (sizes : List (QualifiedAxisId × AnyAxisSize)) :
    Except AxisSizeResolutionError SlotResolver :=
  SlotResolver.newFrom [] [] sizes

/-- Embeds `SlotResolver::try_resolve`, with explicit fuel (`none` = fuel
ran out; the Rust recursion carries no syntactic termination argument).
Returns the resolved size together with the updated resolver state. -/
def SlotResolver.try_resolve (fuel : Nat) (self : SlotResolver)
    (current : QualifiedAxisId) (visited : List QualifiedAxisId) :
    Option (Except AxisSizeResolutionError (ResolvedAxisSize × SlotResolver)) :=
  match fuel with
  | 0 => none
  | fuel + 1 =>
    match AxisMap.lookup current self.resolved_axes with
    | some resolved => some (.ok (resolved, self))
    | none =>
      if current ∈ visited then some (.error (.Loop current))
      else
        let visited2 := visited ++ [current]
        match AxisMap.lookup current self.unresolved_axes with
        | none => some (.error (.Unresolvable visited2))
        | some size_ref =>
          match SlotResolver.try_resolve fuel self size_ref.qualified_axis_id visited2 with
          | none => none
          | some (.error e) => some (.error e)
          | some (.ok (resolved, s2)) =>
            some (.ok (resolved,
              ⟨AxisMap.insert current resolved s2.resolved_axes,
               AxisMap.erase current s2.unresolved_axes⟩))

/-- Status returned by one driving step (`ResolverStatus`). -/
inductive ResolverStatus where
  | Done (resolved : AxisMap ResolvedAxisSize)
  | Resolving (resolver : SlotResolver)
deriving Repr

/-- Embeds `SlotResolver::step`: picks the greatest still-unresolved key
(`BTreeMap::last_key_value`) and resolves it; `Done` once `unresolved_axes`
is empty. -/
def SlotResolver.step (fuel : Nat) (self : SlotResolver) :
    Option (Except AxisSizeResolutionError ResolverStatus) :=
  match AxisMap.maxKey self.unresolved_axes with
  | none => some (.ok (.Done self.resolved_axes))
  | some key =>
    match SlotResolver.try_resolve fuel self key [] with
    | none => none
    | some (.error e) => some (.error e)
    | some (.ok (_, s2)) => some (.ok (.Resolving s2))

/-- Embeds `SlotResolver::solve`: drive `step` until `Done` or error.  The
Rust loop has no built-in bound, so the embedding takes fuel; `none` means
the given fuel was exhausted before the loop reached a terminal result. -/
def SlotResolver.solve (fuel : Nat) (self : SlotResolver) :
    Option (Except AxisSizeResolutionError (AxisMap ResolvedAxisSize)) :=
  match fuel with
  | 0 => none
  | fuel + 1 =>
    match SlotResolver.step (fuel + 1) self with
    | none => none
    | some (.error e) => some (.error e)
    | some (.ok (.Done m)) => some (.ok m)
    | some (.ok (.Resolving r2)) => SlotResolver.solve fuel r2

/-- InputAxis from `bioimg_spec` `axes/input_axes.rs`: five kinds.  Batch
carries no size; a channel axis's size is a fixed count (the source wraps
`axis.size()` into `AnyAxisSize::Fixed`); index, time and space axes carry
an `AnyAxisSize` field.  Payload fields never consulted by the validator
(descriptions, units, scales) are omitted. -/
inductive InputAxis where
  | Batch (id : String)
  | Channel (id : String) (size : Nat)
  | Index (id : String) (size : AnyAxisSize)
  | Time (id : String) (size : AnyAxisSize)
  | Space (id : String) (size : AnyAxisSize)
deriving DecidableEq, Repr

/-- Embeds `InputAxis::id`. -/
def InputAxis.id : InputAxis → String
  | .Batch id => id
  | .Channel id _ => id
  | .Index id _ => id
  | .Time id _ => id
  | .Space id _ => id

/-- Embeds `InputAxis::size`: `None` for batch, `Fixed` for channel, the
carried size otherwise. -/
def InputAxis.size : InputAxis → Option AnyAxisSize
  | .Batch _ => none
  | .Channel _ n => some (.Fixed n)
  | .Index _ s => some s
  | .Time _ s => some s
  | .Space _ s => some s

/-- Modelled from the spec: `output_axes.rs` is not under `src/`; the spec
gives output axes the same shape as input axes (an id plus an optional axis
size, absent exactly for batch-like axes), and the validator consumes both
only through `id()` and `size()`. -/
abbrev OutputAxis := InputAxis

/-- PreprocessingDescr from `bioimg_spec` `preprocessing/mod.rs`.  Only the
`reference_tensor` field of `ScaleRange` is ever consulted by
`ModelInterface::try_build`; the other payloads are omitted. -/
inductive PreprocessingDescr where
  | Binarize
  | Clip
  | EnsureDtype
  | ScaleLinear
  | Sigmoid
  | FixedZeroMeanUnitVariance
  | ZeroMeanUnitVariance
  | ScaleRange (reference_tensor : Option String)
deriving DecidableEq, Repr

/-- PostprocessingDescr from `bioimg_spec` `postprocessing/mod.rs`: the
preprocessing steps plus `ScaleMeanVarianceDescr`, whose `reference_tensor`
is mandatory. -/
inductive PostprocessingDescr where
  | Binarize
  | Clip
  | EnsureDtype
  | ScaleLinear
  | Sigmoid
  | FixedZeroMeanUnitVariance
  | ZeroMeanUnitVariance
  | ScaleRange (reference_tensor : Option String)
  | ScaleMeanVarianceDescr (reference_tensor : String)
deriving DecidableEq, Repr

/-- Modelled from the spec: `input_tensor.rs` is not under `src/`; the spec
describes a tensor slot as an id, an ordered axis list and a processing-step
list, which is exactly how `try_build` consumes `InputTensorMetadata`
(through `.id`, `.axes()` and `.preprocessing()`). -/
structure InputTensorMetadata where
  id : String
  axes : List InputAxis
  preprocessing : List PreprocessingDescr
deriving DecidableEq, Repr

/-- Modelled from the spec: counterpart of `InputTensorMetadata` for
outputs (`output_tensor.rs` is not under `src/`), consumed through `.id`,
`.axes()` and `.postprocessing()`. -/
structure OutputTensorMetadata where
  id : String
  axes : List OutputAxis
  postprocessing : List PostprocessingDescr
deriving DecidableEq, Repr

/-- InputSlot from `model_interface.rs`; the test tensor (`NpyArray`) is
consumed only through `.shape()`, so it is modelled by its shape. -/
structure InputSlot where
  tensor_meta : InputTensorMetadata
  test_tensor : List Nat
deriving DecidableEq, Repr

/-- OutputSlot from `model_interface.rs`, modelled like `InputSlot`. -/
structure OutputSlot where
  tensor_meta : OutputTensorMetadata
  test_tensor : List Nat
deriving DecidableEq, Repr

/-- TensorValidationError from `model_interface.rs` (the two loading-time
variants carry payloads irrelevant to validation and are bare here). -/
inductive TensorValidationError where
  | ReadNpyError
  | UrlUnsupported
  | MismatchedNumDimensions (test_tensor_shape : List Nat) (num_described_axes : Nat)
  | IncompatibleAxis (qualified_axis_id : QualifiedAxisId)
      (test_tensor_dim_size : Nat) (test_tensor_dim_index : Nat)
  | AxisSizeResolutionError (e : AxisSizeResolutionError)
  | DuplicateTensorId (id : String)
  | EmptyInputs
  | EmptyOutputs
  | InvalidTensorReference (reference : String)
deriving DecidableEq, Repr

/-- Embeds the duplicate-tensor-id walk of `try_build`: ids of inputs then
outputs are inserted into a set; the first repeated id is the error. -/
def findDuplicateTensorId (seen : List String) : List String → Option String
  | [] => none
  | id :: rest =>
    if id ∈ seen then some id else findDuplicateTensorId (id :: seen) rest

/-- Embeds `VecInputSlotExt::qual_id_sizes`: every axis that carries a size
yields its qualified id paired with that size, slots in order, axes in
declared order. -/
def qualIdSizesIn (slots : List InputSlot) : List (QualifiedAxisId × AnyAxisSize) :=
  (slots.map (fun slot =>
    slot.tensor_meta.axes.filterMap (fun axis =>
      axis.size.map (fun size =>
        ((⟨slot.tensor_meta.id, axis.id⟩ : QualifiedAxisId), size))))).flatten

/-- Embeds `VecOutputSlotExt::qual_id_sizes`. -/
def qualIdSizesOut (slots : List OutputSlot) : List (QualifiedAxisId × AnyAxisSize) :=
  (slots.map (fun slot =>
    slot.tensor_meta.axes.filterMap (fun axis =>
      axis.size.map (fun size =>
        ((⟨slot.tensor_meta.id, axis.id⟩ : QualifiedAxisId), size))))).flatten

/-- Outcome of validating slots against the resolved size map.  The
`unwrapNone` case marks the one panic site of the source: the `.unwrap()`
on `size_map.get(&qual_id)` inside `validate_resolution!`. -/
inductive SlotCheck where
  | ok
  | err (e : TensorValidationError)
  | unwrapNone
deriving DecidableEq, Repr

/-- Embeds the per-slot loop body of `validate_resolution!`: walk the axis
list against the enumerated shape dimensions; a missing dimension is
`MismatchedNumDimensions`, a sizeless axis consumes its dimension
unchecked, and an incompatible resolved size is `IncompatibleAxis`. -/
def walkAxes (tensor_id : String) (size_map : AxisMap ResolvedAxisSize)
    (test_tensor_shape : List Nat) (num_described_axes : Nat) :
    List InputAxis → Nat → SlotCheck
  | [], _ => .ok
  | axis :: rest, dim_index =>
    match test_tensor_shape.get? dim_index with
    | none => .err (.MismatchedNumDimensions test_tensor_shape num_described_axes)
    | some dim_size =>
      match axis.size with
      | none =>
        walkAxes tensor_id size_map test_tensor_shape num_described_axes rest (dim_index + 1)
      | some _ =>
        let qual_id : QualifiedAxisId := ⟨tensor_id, axis.id⟩
        match AxisMap.lookup qual_id size_map with
        | none => .unwrapNone
        | some resolved =>
          if resolved.is_compatible_with_extent dim_size then
            walkAxes tensor_id size_map test_tensor_shape num_described_axes rest (dim_index + 1)
          else
            .err (.IncompatibleAxis qual_id dim_size dim_index)

/-- Embeds `validate_resolution!` for one input slot. -/
def validateInputSlot (size_map : AxisMap ResolvedAxisSize) (slot : InputSlot) : SlotCheck :=
  walkAxes slot.tensor_meta.id size_map slot.test_tensor
    slot.tensor_meta.axes.length slot.tensor_meta.axes 0

/-- Embeds `validate_resolution!` for one output slot. -/
def validateOutputSlot (size_map : AxisMap ResolvedAxisSize) (slot : OutputSlot) : SlotCheck :=
  walkAxes slot.tensor_meta.id size_map slot.test_tensor
    slot.tensor_meta.axes.length slot.tensor_meta.axes 0

/-- Embeds `validate_resolution!(inputs)`: slots in order, first failure wins. -/
def validateSlotsIn (size_map : AxisMap ResolvedAxisSize) : List InputSlot → SlotCheck
  | [] => .ok
  | slot :: rest =>
    match validateInputSlot size_map slot with
    | .ok => validateSlotsIn size_map rest
    | .err e => .err e
    | .unwrapNone => .unwrapNone

/-- Embeds `validate_resolution!(outputs)`. -/
def validateSlotsOut (size_map : AxisMap ResolvedAxisSize) : List OutputSlot → SlotCheck
  | [] => .ok
  | slot :: rest =>
    match validateOutputSlot size_map slot with
    | .ok => validateSlotsOut size_map rest
    | .err e => .err e
    | .unwrapNone => .unwrapNone

/-- Embeds the preprocessing reference loop of `try_build`: only
`ScaleRange` steps with a `Some` reference are checked, and the reference
must be the id of some INPUT slot (`inputs.iter().find(...)`). -/
def checkPreprocSteps (all_inputs : List InputSlot) :
    List PreprocessingDescr → Option TensorValidationError
  | [] => none
  | .ScaleRange (some tensor_ref) :: rest =>
    if all_inputs.any (fun inp => inp.tensor_meta.id == tensor_ref) then
      checkPreprocSteps all_inputs rest
    else
      some (.InvalidTensorReference tensor_ref)
  | _ :: rest => checkPreprocSteps all_inputs rest

/-- Embeds the outer loop over inputs of the preprocessing reference check. -/
def checkInputRefs (all_inputs : List InputSlot) :
    List InputSlot → Option TensorValidationError
  | [] => none
  | input :: rest =>
    match checkPreprocSteps all_inputs input.tensor_meta.preprocessing with
    | some e => some e
    | none => checkInputRefs all_inputs rest

/-- Embeds the postprocessing reference loop of `try_build`: a
`ScaleMeanVarianceDescr` reference or a `Some` `ScaleRange` reference must
be in `seen_tensor_ids` (ids of ALL inputs and outputs). -/
def checkPostprocSteps (seen_tensor_ids : List String) :
    List PostprocessingDescr → Option TensorValidationError
  | [] => none
  | .ScaleMeanVarianceDescr tensor_ref :: rest =>
    if tensor_ref ∈ seen_tensor_ids then checkPostprocSteps seen_tensor_ids rest
    else some (.InvalidTensorReference tensor_ref)
  | .ScaleRange (some tensor_ref) :: rest =>
    if tensor_ref ∈ seen_tensor_ids then checkPostprocSteps seen_tensor_ids rest
    else some (.InvalidTensorReference tensor_ref)
  | _ :: rest => checkPostprocSteps seen_tensor_ids rest

/-- Embeds the outer loop over outputs of the postprocessing reference check. -/
def checkOutputRefs (seen_tensor_ids : List String) :
    List OutputSlot → Option TensorValidationError
  | [] => none
  | output :: rest =>
    match checkPostprocSteps seen_tensor_ids output.tensor_meta.postprocessing with
    | some e => some e
    | none => checkOutputRefs seen_tensor_ids rest

/-- ModelInterface from `model_interface.rs`; `rdf::NonEmptyList` is
modelled as a `List` whose non-emptiness `try_build` has checked. -/
structure ModelInterface where
  inputs : List InputSlot
  outputs : List OutputSlot
deriving DecidableEq, Repr

/-- Result of `ModelInterface::try_build`.  `unwrapNone` marks the source's
only panic site (the `.unwrap()` on the resolved-size lookup); `outOfFuel`
is the fuel-exhaustion artifact of the embedded `solve`. -/
inductive BuildResult where
  | ok (interface : ModelInterface)
  | err (e : TensorValidationError)
  | unwrapNone
  | outOfFuel
deriving DecidableEq, Repr

/-- Embeds `ModelInterface::try_build`: emptiness checks, duplicate tensor
ids, axis-size collection, resolution, per-slot shape validation, then the
two cross-tensor reference checks. -/
def ModelInterface.try_build (fuel : Nat) (inputs : List InputSlot)
    (outputs : List OutputSlot) : BuildResult :=
  if inputs.isEmpty then .err .EmptyInputs
  else if outputs.isEmpty then .err .EmptyOutputs
  else
    match findDuplicateTensorId []
        (inputs.map (fun s => s.tensor_meta.id) ++ outputs.map (fun s => s.tensor_meta.id)) with
    | some dup => .err (.DuplicateTensorId dup)
    | none =>
      match SlotResolver.new (qualIdSizesIn inputs ++ qualIdSizesOut outputs) with
      | .error e => .err (.AxisSizeResolutionError e)
      | .ok resolver =>
        match SlotResolver.solve fuel resolver with
        | none => .outOfFuel
        | some (.error e) => .err (.AxisSizeResolutionError e)
        | some (.ok size_map) =>
          match validateSlotsIn size_map inputs with
          | .err e => .err e
          | .unwrapNone => .unwrapNone
          | .ok =>
            match validateSlotsOut size_map outputs with
            | .err e => .err e
            | .unwrapNone => .unwrapNone
            | .ok =>
              match checkInputRefs inputs inputs with
              | some e => .err e
              | none =>
                match checkOutputRefs
                    (inputs.map (fun s => s.tensor_meta.id) ++
                      outputs.map (fun s => s.tensor_meta.id)) outputs with
                | some e => .err e
                | none => .ok ⟨inputs, outputs⟩


/-- Injection of an already-resolved size back into `AnyAxisSize`; models
declaring an axis directly as Fixed or Parameterized. -/
def ResolvedAxisSize.toAny : ResolvedAxisSize → AnyAxisSize
  | .Fixed f => .Fixed f
  | .Parameterized p => .Parameterized p

/-- Composition `SlotResolver::new(sizes)?.solve()` exactly as `try_build`
uses the resolver; a construction error is surfaced like a solve error. -/
def resolveAxisSizes (fuel : Nat) (sizes : List (QualifiedAxisId × AnyAxisSize)) :
    Option (Except AxisSizeResolutionError (AxisMap ResolvedAxisSize)) :=
  match SlotResolver.new sizes with
  | .error e => some (.error e)
  | .ok r => SlotResolver.solve fuel r

/-- C1: the claim states that two entries with the same qualified id always
fail construction with `DuplicateId`, also in the mixed case.  The source
only consults the map the entry lands in, so two Fixed entries and two
Reference entries are caught, but a Fixed entry followed by a Reference
entry under the same id is accepted: construction succeeds with the id
present in both maps, contradicting the claim. -/
theorem claim_C1_duplicate_detection :
    SlotResolver.new
        [(⟨"t", "a"⟩, .Fixed 5), (⟨"t", "a"⟩, .Fixed 6)] =
      .error (.DuplicateId ⟨"t", "a"⟩)
  ∧ SlotResolver.new
        [(⟨"t", "a"⟩, .Reference ⟨⟨"t", "b"⟩, 0⟩),
         (⟨"t", "a"⟩, .Reference ⟨⟨"t", "c"⟩, 0⟩)] =
      .error (.DuplicateId ⟨"t", "a"⟩)
  ∧ SlotResolver.new
        [(⟨"t", "a"⟩, .Fixed 5), (⟨"t", "a"⟩, .Reference ⟨⟨"t", "b"⟩, 0⟩)] =
      .ok ⟨[(⟨"t", "a"⟩, .Fixed 5)], [(⟨"t", "a"⟩, ⟨⟨"t", "b"⟩, 0⟩)]⟩ :=
  ⟨rfl, rfl, rfl⟩

/-- C2: the claim states that `solve()` terminates for every resolver that
`new` accepted.  The mixed-duplicate input of C1 is accepted by `new`, and
on the resulting state every `step` finds the duplicated id already in
`resolved_axes`, returns it without shrinking `unresolved_axes`, and loops:
`solve` exhausts any amount of fuel, i.e. the Rust loop never terminates. -/
theorem claim_C2_solve_nontermination :
    SlotResolver.new
        [(⟨"t", "a"⟩, .Fixed 5), (⟨"t", "a"⟩, .Reference ⟨⟨"t", "b"⟩, 0⟩)] =
      .ok ⟨[(⟨"t", "a"⟩, .Fixed 5)], [(⟨"t", "a"⟩, ⟨⟨"t", "b"⟩, 0⟩)]⟩
  ∧ ∀ fuel : Nat,
      SlotResolver.solve fuel
        ⟨[(⟨"t", "a"⟩, .Fixed 5)], [(⟨"t", "a"⟩, ⟨⟨"t", "b"⟩, 0⟩)]⟩ = none := by
  refine ⟨rfl, ?_⟩
  intro fuel
  induction fuel with
  | zero => rfl
  | succ n ih => exact ih

/-- C6: `is_compatible_with_extent` — Fixed matches exactly its extent;
Parameterized matches exactly the extents `min + k * step`; the concrete
cases of the spec hold. -/
theorem claim_C6_compatibility_formula :
    (∀ f extent : Nat,
      (ResolvedAxisSize.Fixed f).is_compatible_with_extent extent = true ↔ extent = f)
  ∧ (∀ (p : ParameterizedAxisSize) (extent : Nat),
      (ResolvedAxisSize.Parameterized p).is_compatible_with_extent extent = true ↔
        p.min ≤ extent ∧ (extent - p.min) % p.step.val = 0)
  ∧ ([2, 5, 8].all (fun e =>
      (ResolvedAxisSize.Parameterized ⟨2, ⟨3, by decide⟩⟩).is_compatible_with_extent e) = true)
  ∧ ([3, 4, 10].all (fun e =>
      !(ResolvedAxisSize.Parameterized ⟨2, ⟨3, by decide⟩⟩).is_compatible_with_extent e) = true)
  ∧ (∀ e : Nat, (ResolvedAxisSize.Fixed 5).is_compatible_with_extent e = true ↔ e = 5) := by
  refine ⟨?_, ?_, by decide, by decide, ?_⟩
  · intro f e
    simp only [ResolvedAxisSize.is_compatible_with_extent, beq_iff_eq]
    exact eq_comm
  · intro p e
    constructor
    · intro h
      by_cases hlt : e < p.min
      · simp [ResolvedAxisSize.is_compatible_with_extent, hlt] at h
      · simp [ResolvedAxisSize.is_compatible_with_extent, hlt] at h
        exact ⟨Nat.le_of_not_lt hlt, h⟩
    · rintro ⟨h1, h2⟩
      have hlt : ¬ e < p.min := Nat.not_lt.mpr h1
      simp [ResolvedAxisSize.is_compatible_with_extent, hlt, h2]
  · intro e
    simp only [ResolvedAxisSize.is_compatible_with_extent, beq_iff_eq]
    exact eq_comm

/-- Witness for C6 at concrete inputs. -/
theorem claim_C6_compatibility_formula_witness :
    (ResolvedAxisSize.Fixed 4).is_compatible_with_extent 4 = true :=
  (claim_C6_compatibility_formula.1 4 4).mpr rfl

/-- C7: with A declared Fixed or Parameterized, B a reference to A and C a
reference to B, resolution succeeds and B and C both map to exactly the
value A resolved to, whatever the offsets carried on the two references. -/
theorem claim_C7_transitive_references :
    ∀ (r : ResolvedAxisSize) (o1 o2 : Nat),
      ∃ m : AxisMap ResolvedAxisSize,
        resolveAxisSizes 3
          [(⟨"t", "a"⟩, r.toAny),
           (⟨"t", "b"⟩, .Reference ⟨⟨"t", "a"⟩, o1⟩),
           (⟨"t", "c"⟩, .Reference ⟨⟨"t", "b"⟩, o2⟩)] = some (.ok m)
        ∧ AxisMap.lookup ⟨"t", "b"⟩ m = some r
        ∧ AxisMap.lookup ⟨"t", "c"⟩ m = some r := by
  intro r o1 o2
  cases r with
  | Fixed f => exact ⟨_, rfl, rfl, rfl⟩
  | Parameterized p => exact ⟨_, rfl, rfl, rfl⟩

/-- C8: a two-cycle (A references B, B references A) fails with `Loop`
naming the id revisited on the resolution call stack, and so does a
self-reference. -/
theorem claim_C8_cycle_detection :
    resolveAxisSizes 4
        [(⟨"t", "a"⟩, .Reference ⟨⟨"t", "b"⟩, 0⟩),
         (⟨"t", "b"⟩, .Reference ⟨⟨"t", "a"⟩, 0⟩)] =
      some (.error (.Loop ⟨"t", "b"⟩))
  ∧ resolveAxisSizes 4
        [(⟨"t", "a"⟩, .Reference ⟨⟨"t", "a"⟩, 0⟩)] =
      some (.error (.Loop ⟨"t", "a"⟩)) :=
  ⟨rfl, rfl⟩

/-- C9: an axis B referencing a never-declared id X makes `solve` fail with
`Unresolvable` whose visited chain contains B (here `[B, X]` in traversal
order), and the error renders the chain joined by arrow separators. -/
theorem claim_C9_unresolvable_chain :
    ∀ o : Nat,
      resolveAxisSizes 4
          [(⟨"t", "a"⟩, .Fixed 4), (⟨"t", "b"⟩, .Reference ⟨⟨"t", "x"⟩, o⟩)] =
        some (.error (.Unresolvable [⟨"t", "b"⟩, ⟨"t", "x"⟩]))
      ∧ (⟨"t", "b"⟩ : QualifiedAxisId) ∈ [(⟨"t", "b"⟩ : QualifiedAxisId), ⟨"t", "x"⟩]
      ∧ (AxisSizeResolutionError.Unresolvable [⟨"t", "b"⟩, ⟨"t", "x"⟩]).display =
          "Chain of axis references is unresolvable: t.b -> t.x" := by
  intro o
  exact ⟨rfl, by decide, rfl⟩

lemma checkPreprocSteps_none_iff (inputs : List InputSlot) (steps : List PreprocessingDescr) :
    checkPreprocSteps inputs steps = none ↔
      ∀ ref, PreprocessingDescr.ScaleRange (some ref) ∈ steps →
        inputs.any (fun inp => inp.tensor_meta.id == ref) = true := by
  induction steps with
  | nil => simp [checkPreprocSteps]
  | cons p rest ih =>
    cases p with
    | ScaleRange oref =>
      cases oref with
      | none => simp [checkPreprocSteps, ih]
      | some ref =>
        by_cases h : inputs.any (fun inp => inp.tensor_meta.id == ref) = true
        · rw [show checkPreprocSteps inputs (.ScaleRange (some ref) :: rest) =
              checkPreprocSteps inputs rest by simp [checkPreprocSteps, h]]
          rw [ih]
          constructor
          · intro hr r2 hmem
            rcases List.mem_cons.mp hmem with heq | hmem2
            · cases heq
              exact h
            · exact hr r2 hmem2
          · intro hr r2 hmem2
            exact hr r2 (List.mem_cons_of_mem _ hmem2)
        · rw [show checkPreprocSteps inputs (.ScaleRange (some ref) :: rest) =
              some (.InvalidTensorReference ref) by simp [checkPreprocSteps, h]]
          simp only [reduceCtorEq, false_iff]
          intro hr
          exact h (hr ref (List.mem_cons_self _ _))
    | Binarize => simp [checkPreprocSteps, ih]
    | Clip => simp [checkPreprocSteps, ih]
    | EnsureDtype => simp [checkPreprocSteps, ih]
    | ScaleLinear => simp [checkPreprocSteps, ih]
    | Sigmoid => simp [checkPreprocSteps, ih]
    | FixedZeroMeanUnitVariance => simp [checkPreprocSteps, ih]
    | ZeroMeanUnitVariance => simp [checkPreprocSteps, ih]

lemma checkInputRefs_none_iff (inputs slots : List InputSlot) :
    checkInputRefs inputs slots = none ↔
      ∀ input ∈ slots, checkPreprocSteps inputs input.tensor_meta.preprocessing = none := by
  induction slots with
  | nil => simp [checkInputRefs]
  | cons input rest ih =>
    cases h : checkPreprocSteps inputs input.tensor_meta.preprocessing with
    | some e =>
      simp only [checkInputRefs, h, List.mem_cons]
      constructor
      · intro hfalse
        cases hfalse
      · intro hr
        have := hr input (Or.inl rfl)
        rw [h] at this
        cases this
    | none =>
      simp only [checkInputRefs, h, List.mem_cons]
      rw [ih]
      constructor
      · intro hr x hx
        rcases hx with heq | hx2
        · rw [heq]
          exact h
        · exact hr x hx2
      · intro hr x hx
        exact hr x (Or.inr hx)

lemma checkPostprocSteps_none_iff (seen : List String) (steps : List PostprocessingDescr) :
    checkPostprocSteps seen steps = none ↔
      ∀ ref,
        (PostprocessingDescr.ScaleRange (some ref) ∈ steps ∨
         PostprocessingDescr.ScaleMeanVarianceDescr ref ∈ steps) →
        ref ∈ seen := by
  induction steps with
  | nil => simp [checkPostprocSteps]
  | cons p rest ih =>
    cases p with
    | ScaleRange oref =>
      cases oref with
      | none => simp [checkPostprocSteps, ih]
      | some ref =>
        by_cases h : ref ∈ seen
        · rw [show checkPostprocSteps seen (.ScaleRange (some ref) :: rest) =
              checkPostprocSteps seen rest by simp [checkPostprocSteps, h]]
          rw [ih]
          constructor
          · intro hr r2 hmem
            rcases hmem with hmem | hmem
            · rcases List.mem_cons.mp hmem with heq | hmem2
              · cases heq
                exact h
              · exact hr r2 (Or.inl hmem2)
            · rcases List.mem_cons.mp hmem with heq | hmem2
              · simp at heq
              · exact hr r2 (Or.inr hmem2)
          · intro hr r2 hmem
            rcases hmem with hmem | hmem
            · exact hr r2 (Or.inl (List.mem_cons_of_mem _ hmem))
            · exact hr r2 (Or.inr (List.mem_cons_of_mem _ hmem))
        · rw [show checkPostprocSteps seen (.ScaleRange (some ref) :: rest) =
              some (.InvalidTensorReference ref) by simp [checkPostprocSteps, h]]
          simp only [reduceCtorEq, false_iff]
          intro hr
          exact h (hr ref (Or.inl (List.mem_cons_self _ _)))
    | ScaleMeanVarianceDescr ref =>
      by_cases h : ref ∈ seen
      · rw [show checkPostprocSteps seen (.ScaleMeanVarianceDescr ref :: rest) =
            checkPostprocSteps seen rest by simp [checkPostprocSteps, h]]
        rw [ih]
        constructor
        · intro hr r2 hmem
          rcases hmem with hmem | hmem
          · rcases List.mem_cons.mp hmem with heq | hmem2
            · simp at heq
            · exact hr r2 (Or.inl hmem2)
          · rcases List.mem_cons.mp hmem with heq | hmem2
            · cases heq
              exact h
            · exact hr r2 (Or.inr hmem2)
        · intro hr r2 hmem
          rcases hmem with hmem | hmem
          · exact hr r2 (Or.inl (List.mem_cons_of_mem _ hmem))
          · exact hr r2 (Or.inr (List.mem_cons_of_mem _ hmem))
      · rw [show checkPostprocSteps seen (.ScaleMeanVarianceDescr ref :: rest) =
            some (.InvalidTensorReference ref) by simp [checkPostprocSteps, h]]
        simp only [reduceCtorEq, false_iff]
        intro hr
        exact h (hr ref (Or.inr (List.mem_cons_self _ _)))
    | Binarize => simp [checkPostprocSteps, ih]
    | Clip => simp [checkPostprocSteps, ih]
    | EnsureDtype => simp [checkPostprocSteps, ih]
    | ScaleLinear => simp [checkPostprocSteps, ih]
    | Sigmoid => simp [checkPostprocSteps, ih]
    | FixedZeroMeanUnitVariance => simp [checkPostprocSteps, ih]
    | ZeroMeanUnitVariance => simp [checkPostprocSteps, ih]

lemma checkOutputRefs_none_iff (seen : List String) (slots : List OutputSlot) :
    checkOutputRefs seen slots = none ↔
      ∀ output ∈ slots, checkPostprocSteps seen output.tensor_meta.postprocessing = none := by
  induction slots with
  | nil => simp [checkOutputRefs]
  | cons output rest ih =>
    cases h : checkPostprocSteps seen output.tensor_meta.postprocessing with
    | some e =>
      simp only [checkOutputRefs, h, List.mem_cons]
      constructor
      · intro hfalse
        cases hfalse
      · intro hr
        have := hr output (Or.inl rfl)
        rw [h] at this
        cases this
    | none =>
      simp only [checkOutputRefs, h, List.mem_cons]
      rw [ih]
      constructor
      · intro hr x hx
        rcases hx with heq | hx2
        · rw [heq]
          exact h
        · exact hr x hx2
      · intro hr x hx
        exact hr x (Or.inr hx)

lemma checkPreprocSteps_some_shape (inputs : List InputSlot)
    (steps : List PreprocessingDescr) (e : TensorValidationError) :
    checkPreprocSteps inputs steps = some e →
    ∃ ref, e = .InvalidTensorReference ref ∧
      inputs.any (fun inp => inp.tensor_meta.id == ref) = false := by
  induction steps with
  | nil => intro h; cases h
  | cons p rest ih =>
    cases p with
    | ScaleRange oref =>
      cases oref with
      | none =>
        intro h
        exact ih (by simpa [checkPreprocSteps] using h)
      | some ref =>
        by_cases hany : inputs.any (fun inp => inp.tensor_meta.id == ref) = true
        · intro h
          exact ih (by simpa [checkPreprocSteps, hany] using h)
        · intro h
          rw [show checkPreprocSteps inputs (.ScaleRange (some ref) :: rest) =
              some (.InvalidTensorReference ref) by simp [checkPreprocSteps, hany]] at h
          cases h
          exact ⟨ref, rfl, Bool.eq_false_iff.mpr (fun hc => hany hc)⟩
    | Binarize => intro h; exact ih (by simpa [checkPreprocSteps] using h)
    | Clip => intro h; exact ih (by simpa [checkPreprocSteps] using h)
    | EnsureDtype => intro h; exact ih (by simpa [checkPreprocSteps] using h)
    | ScaleLinear => intro h; exact ih (by simpa [checkPreprocSteps] using h)
    | Sigmoid => intro h; exact ih (by simpa [checkPreprocSteps] using h)
    | FixedZeroMeanUnitVariance => intro h; exact ih (by simpa [checkPreprocSteps] using h)
    | ZeroMeanUnitVariance => intro h; exact ih (by simpa [checkPreprocSteps] using h)

lemma checkInputRefs_some_shape (inputs slots : List InputSlot) (e : TensorValidationError) :
    checkInputRefs inputs slots = some e →
    ∃ ref, e = .InvalidTensorReference ref ∧
      inputs.any (fun inp => inp.tensor_meta.id == ref) = false := by
  induction slots with
  | nil => intro h; cases h
  | cons input rest ih =>
    cases h2 : checkPreprocSteps inputs input.tensor_meta.preprocessing with
    | some e2 =>
      intro h
      rw [show checkInputRefs inputs (input :: rest) = some e2 by
        simp [checkInputRefs, h2]] at h
      cases h
      exact checkPreprocSteps_some_shape inputs _ _ h2
    | none =>
      intro h
      exact ih (by simpa [checkInputRefs, h2] using h)

lemma checkPostprocSteps_some_shape (seen : List String)
    (steps : List PostprocessingDescr) (e : TensorValidationError) :
    checkPostprocSteps seen steps = some e →
    ∃ ref, e = .InvalidTensorReference ref ∧ ref ∉ seen := by
  induction steps with
  | nil => intro h; cases h
  | cons p rest ih =>
    cases p with
    | ScaleRange oref =>
      cases oref with
      | none =>
        intro h
        exact ih (by simpa [checkPostprocSteps] using h)
      | some ref =>
        by_cases hmem : ref ∈ seen
        · intro h
          exact ih (by simpa [checkPostprocSteps, hmem] using h)
        · intro h
          rw [show checkPostprocSteps seen (.ScaleRange (some ref) :: rest) =
              some (.InvalidTensorReference ref) by simp [checkPostprocSteps, hmem]] at h
          cases h
          exact ⟨ref, rfl, hmem⟩
    | ScaleMeanVarianceDescr ref =>
      by_cases hmem : ref ∈ seen
      · intro h
        exact ih (by simpa [checkPostprocSteps, hmem] using h)
      · intro h
        rw [show checkPostprocSteps seen (.ScaleMeanVarianceDescr ref :: rest) =
            some (.InvalidTensorReference ref) by simp [checkPostprocSteps, hmem]] at h
        cases h
        exact ⟨ref, rfl, hmem⟩
    | Binarize => intro h; exact ih (by simpa [checkPostprocSteps] using h)
    | Clip => intro h; exact ih (by simpa [checkPostprocSteps] using h)
    | EnsureDtype => intro h; exact ih (by simpa [checkPostprocSteps] using h)
    | ScaleLinear => intro h; exact ih (by simpa [checkPostprocSteps] using h)
    | Sigmoid => intro h; exact ih (by simpa [checkPostprocSteps] using h)
    | FixedZeroMeanUnitVariance => intro h; exact ih (by simpa [checkPostprocSteps] using h)
    | ZeroMeanUnitVariance => intro h; exact ih (by simpa [checkPostprocSteps] using h)

lemma checkOutputRefs_some_shape (seen : List String) (slots : List OutputSlot)
    (e : TensorValidationError) :
    checkOutputRefs seen slots = some e →
    ∃ ref, e = .InvalidTensorReference ref ∧ ref ∉ seen := by
  induction slots with
  | nil => intro h; cases h
  | cons output rest ih =>
    cases h2 : checkPostprocSteps seen output.tensor_meta.postprocessing with
    | some e2 =>
      intro h
      rw [show checkOutputRefs seen (output :: rest) = some e2 by
        simp [checkOutputRefs, h2]] at h
      cases h
      exact checkPostprocSteps_some_shape seen _ _ h2
    | none =>
      intro h
      exact ih (by simpa [checkOutputRefs, h2] using h)

/-- C3 counterexample: the claim says an input pre-processing step may
reference any known tensor id, in particular an output's id, without
error.  On the code, an input whose `ScaleRange` step references the
output tensor `y` — an id present among all known tensor ids — is rejected
with `InvalidTensorReference`, because the input check searches inputs
only. -/
theorem claim_C3_counterexample :
    ModelInterface.try_build 4
        [⟨⟨"x", [.Space "a" (.Fixed 4)], [.ScaleRange (some "y")]⟩, [4]⟩]
        [⟨⟨"y", [.Space "b" (.Fixed 4)], []⟩, [4]⟩] =
      .err (.InvalidTensorReference "y")
  ∧ "y" ∈
      ([⟨⟨"x", [.Space "a" (.Fixed 4)], [.ScaleRange (some "y")]⟩, [4]⟩] : List InputSlot).map
          (fun s => s.tensor_meta.id) ++
        ([⟨⟨"y", [.Space "b" (.Fixed 4)], []⟩, [4]⟩] : List OutputSlot).map
          (fun s => s.tensor_meta.id) :=
  ⟨rfl, by decide⟩

/-- C3 amended: the input pre-processing reference check succeeds iff every
`ScaleRange` reference on an input names the id of some INPUT slot, while
the output post-processing reference check succeeds iff every reference
names an id among `seen_tensor_ids` (all inputs and outputs); a violating
check yields exactly an `InvalidTensorReference` carrying an id outside
the respective set. -/
theorem claim_C3_reference_check_amended :
    (∀ inputs : List InputSlot,
      checkInputRefs inputs inputs = none ↔
        ∀ input ∈ inputs, ∀ ref,
          PreprocessingDescr.ScaleRange (some ref) ∈ input.tensor_meta.preprocessing →
          ∃ inp ∈ inputs, inp.tensor_meta.id = ref)
  ∧ (∀ (seen : List String) (outputs : List OutputSlot),
      checkOutputRefs seen outputs = none ↔
        ∀ output ∈ outputs, ∀ ref,
          (PostprocessingDescr.ScaleRange (some ref) ∈ output.tensor_meta.postprocessing ∨
           PostprocessingDescr.ScaleMeanVarianceDescr ref ∈ output.tensor_meta.postprocessing) →
          ref ∈ seen)
  ∧ (∀ (inputs slots : List InputSlot) (e : TensorValidationError),
      checkInputRefs inputs slots = some e →
        ∃ ref, e = .InvalidTensorReference ref ∧ ¬ ∃ inp ∈ inputs, inp.tensor_meta.id = ref)
  ∧ (∀ (seen : List String) (outputs : List OutputSlot) (e : TensorValidationError),
      checkOutputRefs seen outputs = some e →
        ∃ ref, e = .InvalidTensorReference ref ∧ ref ∉ seen) := by
  refine ⟨?_, ?_, ?_, ?_⟩
  · intro inputs
    rw [checkInputRefs_none_iff]
    constructor
    · intro h input hin ref hmem
      have := (checkPreprocSteps_none_iff inputs input.tensor_meta.preprocessing).mp
        (h input hin) ref hmem
      simpa using this
    · intro h input hin
      rw [checkPreprocSteps_none_iff]
      intro ref hmem
      simpa using h input hin ref hmem
  · intro seen outputs
    rw [checkOutputRefs_none_iff]
    constructor
    · intro h output hout ref hmem
      exact (checkPostprocSteps_none_iff seen _).mp (h output hout) ref hmem
    · intro h output hout
      rw [checkPostprocSteps_none_iff]
      exact fun ref hmem => h output hout ref hmem
  · intro inputs slots e h
    obtain ⟨ref, he, hany⟩ := checkInputRefs_some_shape inputs slots e h
    refine ⟨ref, he, ?_⟩
    intro hex
    rw [List.any_eq_false] at hany
    obtain ⟨inp, hin, hid⟩ := hex
    exact hany inp hin (by simpa using hid)
  · intro seen outputs e h
    exact checkOutputRefs_some_shape seen outputs e h

/-- Witness for the amended C3 at a concrete rejected reference. -/
theorem claim_C3_reference_check_amended_witness :
    ∃ ref, (TensorValidationError.InvalidTensorReference "nope" =
        .InvalidTensorReference ref)
      ∧ ¬ ∃ inp ∈ ([⟨⟨"x", [], [.ScaleRange (some "nope")]⟩, []⟩] : List InputSlot),
          inp.tensor_meta.id = ref :=
  claim_C3_reference_check_amended.2.2.1
    [⟨⟨"x", [], [.ScaleRange (some "nope")]⟩, []⟩]
    [⟨⟨"x", [], [.ScaleRange (some "nope")]⟩, []⟩]
    (.InvalidTensorReference "nope") rfl

lemma get?_toElem {α : Type} {l : List α} {i : Nat} {x : Option α}
    (h : l.get? i = x) : l[i]? = x := by
  rw [← List.get?_eq_getElem?]
  exact h

lemma walkAxes_no_mismatch (tid : String) (m : AxisMap ResolvedAxisSize) (n : Nat) :
    ∀ (axes : List InputAxis) (s : List Nat) (i : Nat),
      i + axes.length ≤ s.length →
      ∀ (s2 : List Nat) (n2 : Nat),
        walkAxes tid m s n axes i ≠ .err (.MismatchedNumDimensions s2 n2) := by
  intro axes
  induction axes with
  | nil =>
    intro s i h s2 n2
    simp [walkAxes]
  | cons a rest ih =>
    intro s i h s2 n2
    have hi : i < s.length := by simp at h; omega
    obtain ⟨e, he⟩ : ∃ e, s.get? i = some e := ⟨s.get ⟨i, hi⟩, List.get?_eq_get hi⟩
    have heg : s[i]? = some e := get?_toElem he
    cases hsize : a.size with
    | none =>
      rw [show walkAxes tid m s n (a :: rest) i = walkAxes tid m s n rest (i+1) by
        simp [walkAxes, heg, hsize]]
      exact ih s (i+1) (by simp at h ⊢; omega) s2 n2
    | some sz =>
      cases hlook : AxisMap.lookup ⟨tid, a.id⟩ m with
      | none =>
        rw [show walkAxes tid m s n (a :: rest) i = .unwrapNone by
          simp [walkAxes, heg, hsize, hlook]]
        simp
      | some r =>
        by_cases hc : r.is_compatible_with_extent e = true
        · rw [show walkAxes tid m s n (a :: rest) i = walkAxes tid m s n rest (i+1) by
            simp [walkAxes, heg, hsize, hlook, hc]]
          exact ih s (i+1) (by simp at h ⊢; omega) s2 n2
        · rw [show walkAxes tid m s n (a :: rest) i =
              .err (.IncompatibleAxis ⟨tid, a.id⟩ e i) by
            simp [walkAxes, heg, hsize, hlook, hc]]
          simp

lemma walkAxes_agree (tid : String) (m : AxisMap ResolvedAxisSize) (n : Nat) :
    ∀ (axes : List InputAxis) (s t : List Nat) (i : Nat),
      i + axes.length ≤ s.length → i + axes.length ≤ t.length →
      (∀ j a, axes.get? j = some a → a.size.isSome = true →
        s.get? (i + j) = t.get? (i + j)) →
      walkAxes tid m s n axes i = walkAxes tid m t n axes i := by
  intro axes
  induction axes with
  | nil =>
    intro s t i _ _ _
    simp [walkAxes]
  | cons a rest ih =>
    intro s t i hs ht hagree
    have his : i < s.length := by simp at hs; omega
    have hit : i < t.length := by simp at ht; omega
    obtain ⟨e1, he1⟩ : ∃ e, s.get? i = some e := ⟨s.get ⟨i, his⟩, List.get?_eq_get his⟩
    obtain ⟨e2, he2⟩ : ∃ e, t.get? i = some e := ⟨t.get ⟨i, hit⟩, List.get?_eq_get hit⟩
    have he1g : s[i]? = some e1 := get?_toElem he1
    have he2g : t[i]? = some e2 := get?_toElem he2
    have hshift : ∀ j b, rest.get? j = some b → b.size.isSome = true →
        s.get? (i + 1 + j) = t.get? (i + 1 + j) := by
      intro j b hj hb
      have := hagree (j + 1) b (by simpa using hj) hb
      rw [show i + (j + 1) = i + 1 + j by omega] at this
      exact this
    cases hsize : a.size with
    | none =>
      rw [show walkAxes tid m s n (a :: rest) i = walkAxes tid m s n rest (i+1) by
        simp [walkAxes, he1g, hsize]]
      rw [show walkAxes tid m t n (a :: rest) i = walkAxes tid m t n rest (i+1) by
        simp [walkAxes, he2g, hsize]]
      exact ih s t (i+1) (by simp at hs ⊢; omega) (by simp at ht ⊢; omega) hshift
    | some sz =>
      have heq : e1 = e2 := by
        have := hagree 0 a (by simp) (by simp [hsize])
        rw [Nat.add_zero, he1, he2] at this
        exact Option.some_inj.mp this
      subst heq
      cases hlook : AxisMap.lookup ⟨tid, a.id⟩ m with
      | none =>
        rw [show walkAxes tid m s n (a :: rest) i = .unwrapNone by
          simp [walkAxes, he1g, hsize, hlook]]
        rw [show walkAxes tid m t n (a :: rest) i = .unwrapNone by
          simp [walkAxes, he2g, hsize, hlook]]
      | some r =>
        by_cases hc : r.is_compatible_with_extent e1 = true
        · rw [show walkAxes tid m s n (a :: rest) i = walkAxes tid m s n rest (i+1) by
            simp [walkAxes, he1g, hsize, hlook, hc]]
          rw [show walkAxes tid m t n (a :: rest) i = walkAxes tid m t n rest (i+1) by
            simp [walkAxes, he2g, hsize, hlook, hc]]
          exact ih s t (i+1) (by simp at hs ⊢; omega) (by simp at ht ⊢; omega) hshift
        · rw [show walkAxes tid m s n (a :: rest) i =
              .err (.IncompatibleAxis ⟨tid, a.id⟩ e1 i) by
            simp [walkAxes, he1g, hsize, hlook, hc]]
          rw [show walkAxes tid m t n (a :: rest) i =
              .err (.IncompatibleAxis ⟨tid, a.id⟩ e1 i) by
            simp [walkAxes, he2g, hsize, hlook, hc]]

lemma walkAxes_mismatch (tid : String) (m : AxisMap ResolvedAxisSize) (n : Nat) :
    ∀ (axes : List InputAxis) (s : List Nat) (i : Nat),
      axes ≠ [] → s.length < i + axes.length →
      (∀ j a e, axes.get? j = some a → s.get? (i + j) = some e → a.size.isSome = true →
        ∃ r, AxisMap.lookup ⟨tid, a.id⟩ m = some r ∧
          r.is_compatible_with_extent e = true) →
      walkAxes tid m s n axes i = .err (.MismatchedNumDimensions s n) := by
  intro axes
  induction axes with
  | nil =>
    intro s i hne
    exact absurd rfl hne
  | cons a rest ih =>
    intro s i _ hlen hpre
    cases hge : s.get? i with
    | none =>
      have hgeg : s[i]? = none := get?_toElem hge
      simp [walkAxes, hgeg]
    | some e =>
      have hgeg : s[i]? = some e := get?_toElem hge
      have hi : i < s.length := (List.get?_eq_some.mp hge).1
      have hrest : rest ≠ [] := by
        intro hr
        rw [hr] at hlen
        simp at hlen
        omega
      have hpre2 : ∀ j b e2, rest.get? j = some b → s.get? (i + 1 + j) = some e2 →
          b.size.isSome = true →
          ∃ r, AxisMap.lookup ⟨tid, b.id⟩ m = some r ∧
            r.is_compatible_with_extent e2 = true := by
        intro j b e2 hj hsj hb
        exact hpre (j+1) b e2 (by simpa using hj)
          (by rw [show i + (j+1) = i + 1 + j by omega]; exact hsj) hb
      cases hsize : a.size with
      | none =>
        rw [show walkAxes tid m s n (a :: rest) i = walkAxes tid m s n rest (i+1) by
          simp [walkAxes, hgeg, hsize]]
        exact ih s (i+1) hrest (by simp at hlen ⊢; omega) hpre2
      | some sz =>
        obtain ⟨r, hlook, hc⟩ := hpre 0 a e (by simp) (by simpa using hge) (by simp [hsize])
        rw [show walkAxes tid m s n (a :: rest) i = walkAxes tid m s n rest (i+1) by
          simp [walkAxes, hgeg, hsize, hlook, hc]]
        exact ih s (i+1) hrest (by simp at hlen ⊢; omega) hpre2

lemma walkAxes_incompat (tid : String) (m : AxisMap ResolvedAxisSize) (n : Nat) :
    ∀ (axes : List InputAxis) (s : List Nat) (i idx : Nat) (a : InputAxis) (e : Nat)
      (r : ResolvedAxisSize),
      axes.get? idx = some a → s.get? (i + idx) = some e → a.size.isSome = true →
      AxisMap.lookup ⟨tid, a.id⟩ m = some r → r.is_compatible_with_extent e = false →
      (∀ j b e2, j < idx → axes.get? j = some b → s.get? (i + j) = some e2 →
        b.size.isSome = true →
        ∃ r2, AxisMap.lookup ⟨tid, b.id⟩ m = some r2 ∧
          r2.is_compatible_with_extent e2 = true) →
      walkAxes tid m s n axes i = .err (.IncompatibleAxis ⟨tid, a.id⟩ e (i + idx)) := by
  intro axes
  induction axes with
  | nil =>
    intro s i idx a e r hidx
    cases hidx
  | cons b rest ih =>
    intro s i idx a e r hidx hse hsized hlook hc hpre
    cases idx with
    | zero =>
      have hba : b = a := by simpa using hidx
      subst hba
      rw [Nat.add_zero] at hse
      have hseg : s[i]? = some e := get?_toElem hse
      obtain ⟨sz, hsz⟩ := Option.isSome_iff_exists.mp hsized
      rw [Nat.add_zero]
      rw [show walkAxes tid m s n (b :: rest) i =
          .err (.IncompatibleAxis ⟨tid, b.id⟩ e i) by
        simp [walkAxes, hseg, hsz, hlook, hc]]
    | succ idx2 =>
      have hi : i < s.length := by
        have := (List.get?_eq_some.mp hse).1
        omega
      obtain ⟨e0, he0⟩ : ∃ e0, s.get? i = some e0 := ⟨s.get ⟨i, hi⟩, List.get?_eq_get hi⟩
      have he0g : s[i]? = some e0 := get?_toElem he0
      have hidx2 : rest.get? idx2 = some a := by simpa using hidx
      have hse2 : s.get? (i + 1 + idx2) = some e := by
        rw [show i + 1 + idx2 = i + (idx2 + 1) by omega]
        exact hse
      have hpre2 : ∀ j b2 e2, j < idx2 → rest.get? j = some b2 →
          s.get? (i + 1 + j) = some e2 → b2.size.isSome = true →
          ∃ r2, AxisMap.lookup ⟨tid, b2.id⟩ m = some r2 ∧
            r2.is_compatible_with_extent e2 = true := by
        intro j b2 e2 hj hr2 hs2 hb2
        exact hpre (j+1) b2 e2 (by omega) (by simpa using hr2)
          (by rw [show i + (j+1) = i + 1 + j by omega]; exact hs2) hb2
      have hgoal_idx : i + (idx2 + 1) = (i + 1) + idx2 := by omega
      cases hbsize : b.size with
      | none =>
        rw [show walkAxes tid m s n (b :: rest) i = walkAxes tid m s n rest (i+1) by
          simp [walkAxes, he0g, hbsize]]
        rw [hgoal_idx]
        exact ih s (i+1) idx2 a e r hidx2 hse2 hsized hlook hc hpre2
      | some sz0 =>
        obtain ⟨r0, hlook0, hc0⟩ :=
          hpre 0 b e0 (by omega) (by simp) (by simpa using he0) (by simp [hbsize])
        rw [show walkAxes tid m s n (b :: rest) i = walkAxes tid m s n rest (i+1) by
          simp [walkAxes, he0g, hbsize, hlook0, hc0]]
        rw [hgoal_idx]
        exact ih s (i+1) idx2 a e r hidx2 hse2 hsized hlook hc hpre2

/-- C10: when the sample array has more dimensions than the slot describes
axes, the walk checks only the first `axes.length` dimensions — the result
is unchanged if the trailing dimensions are cut off — and it never fails
with `MismatchedNumDimensions`. -/
theorem claim_C10_trailing_dims_ignored :
    ∀ (m : AxisMap ResolvedAxisSize) (slot : InputSlot),
      slot.tensor_meta.axes.length < slot.test_tensor.length →
      validateInputSlot m slot =
        validateInputSlot m
          ⟨slot.tensor_meta, slot.test_tensor.take slot.tensor_meta.axes.length⟩
      ∧ ∀ (s2 : List Nat) (n2 : Nat),
          validateInputSlot m slot ≠ .err (.MismatchedNumDimensions s2 n2) := by
  intro m slot h
  constructor
  · show walkAxes slot.tensor_meta.id m slot.test_tensor
        slot.tensor_meta.axes.length slot.tensor_meta.axes 0 =
      walkAxes slot.tensor_meta.id m
        (slot.test_tensor.take slot.tensor_meta.axes.length)
        slot.tensor_meta.axes.length slot.tensor_meta.axes 0
    apply walkAxes_agree
    · omega
    · rw [List.length_take]
      omega
    · intro j a hj _
      have hjlen : j < slot.tensor_meta.axes.length := (List.get?_eq_some.mp hj).1
      simp only [Nat.zero_add]
      exact (List.get?_take hjlen).symm
  · intro s2 n2
    exact walkAxes_no_mismatch slot.tensor_meta.id m slot.tensor_meta.axes.length
      slot.tensor_meta.axes slot.test_tensor 0 (by omega) s2 n2

/-- Witness for C10: a slot with no described axes and a one-dimensional
sample never reports a dimension-count mismatch. -/
theorem claim_C10_trailing_dims_ignored_witness :
    validateInputSlot [] ⟨⟨"x", [], []⟩, [7]⟩ ≠
      .err (.MismatchedNumDimensions [7] 0) :=
  (claim_C10_trailing_dims_ignored [] ⟨⟨"x", [], []⟩, [7]⟩ (by decide)).2 [7] 0

/-- C5: the axis list is walked against the sample shape in declared order:
with every checked dimension before the end compatible, running out of
dimensions fails with `MismatchedNumDimensions` carrying the full shape
and the number of described axes; a sizeless (batch-like) axis consumes
its dimension without reading it; the first incompatible sized axis fails
with `IncompatibleAxis` carrying its qualified id, the dimension extent
and the dimension index; and the spec's end-to-end scenario 2 holds on
`try_build`. -/
theorem claim_C5_shape_validation_walk :
    (∀ (m : AxisMap ResolvedAxisSize) (slot : InputSlot),
      slot.test_tensor.length < slot.tensor_meta.axes.length →
      (∀ j a e, slot.tensor_meta.axes.get? j = some a →
        slot.test_tensor.get? j = some e → a.size.isSome = true →
        ∃ r, AxisMap.lookup ⟨slot.tensor_meta.id, a.id⟩ m = some r ∧
          r.is_compatible_with_extent e = true) →
      validateInputSlot m slot =
        .err (.MismatchedNumDimensions slot.test_tensor slot.tensor_meta.axes.length))
  ∧ (∀ (m : AxisMap ResolvedAxisSize) (meta : InputTensorMetadata) (shape : List Nat)
      (j v : Nat) (a : InputAxis),
      meta.axes.get? j = some a → a.size = none → meta.axes.length ≤ shape.length →
      validateInputSlot m ⟨meta, shape.set j v⟩ = validateInputSlot m ⟨meta, shape⟩)
  ∧ (∀ (m : AxisMap ResolvedAxisSize) (slot : InputSlot) (idx : Nat) (a : InputAxis)
      (e : Nat) (r : ResolvedAxisSize),
      slot.tensor_meta.axes.get? idx = some a →
      slot.test_tensor.get? idx = some e →
      a.size.isSome = true →
      AxisMap.lookup ⟨slot.tensor_meta.id, a.id⟩ m = some r →
      r.is_compatible_with_extent e = false →
      (∀ j b e2, j < idx → slot.tensor_meta.axes.get? j = some b →
        slot.test_tensor.get? j = some e2 → b.size.isSome = true →
        ∃ r2, AxisMap.lookup ⟨slot.tensor_meta.id, b.id⟩ m = some r2 ∧
          r2.is_compatible_with_extent e2 = true) →
      validateInputSlot m slot =
        .err (.IncompatibleAxis ⟨slot.tensor_meta.id, a.id⟩ e idx))
  ∧ ModelInterface.try_build 4
      [⟨⟨"x", [.Space "a" (.Fixed 4)], []⟩, [4]⟩]
      [⟨⟨"y", [.Space "b" (.Reference ⟨⟨"x", "a"⟩, 0⟩)], []⟩, [5]⟩] =
      .err (.IncompatibleAxis ⟨"y", "b"⟩ 5 0) := by
  refine ⟨?_, ?_, ?_, rfl⟩
  · intro m slot h hpre
    have hne : slot.tensor_meta.axes ≠ [] := by
      intro hnil
      rw [hnil] at h
      simp at h
    exact walkAxes_mismatch slot.tensor_meta.id m slot.tensor_meta.axes.length
      slot.tensor_meta.axes slot.test_tensor 0 hne (by omega)
      (fun j a e hj hs hsized => hpre j a e hj (by simpa using hs) hsized)
  · intro m meta shape j v a hj hnone hlen
    show walkAxes meta.id m (shape.set j v) meta.axes.length meta.axes 0 =
      walkAxes meta.id m shape meta.axes.length meta.axes 0
    apply walkAxes_agree
    · rw [List.length_set]
      omega
    · omega
    · intro j0 b hj0 hb
      have hne : j ≠ j0 := by
        intro hjj
        subst hjj
        rw [hj] at hj0
        have hba : a = b := Option.some_inj.mp hj0
        rw [← hba, hnone] at hb
        simp at hb
      simp only [Nat.zero_add]
      exact List.get?_set_ne v shape hne
  · intro m slot idx a e r hidx hse hsized hlook hc hpre
    have hres := walkAxes_incompat slot.tensor_meta.id m slot.tensor_meta.axes.length
      slot.tensor_meta.axes slot.test_tensor 0 idx a e r hidx (by simpa using hse)
      hsized hlook hc
      (fun j b e2 hj hb hs2 hbs => hpre j b e2 hj hb (by simpa using hs2) hbs)
    rw [Nat.zero_add] at hres
    exact hres

/-- Witness for C5: a slot describing one axis against an empty shape fails
with a dimension-count mismatch carrying the shape and the axis count. -/
theorem claim_C5_shape_validation_walk_witness :
    validateInputSlot [] ⟨⟨"x", [.Batch "n"], []⟩, []⟩ =
      .err (.MismatchedNumDimensions [] 1) :=
  claim_C5_shape_validation_walk.1 [] ⟨⟨"x", [.Batch "n"], []⟩, []⟩ (by decide)
    (by
      intro j a e _ he _
      simp at he)

lemma AxisMap.mem_keys_insert {α : Type} (k k2 : QualifiedAxisId) (v : α) :
    ∀ m : AxisMap α, k2 ∈ (AxisMap.insert k v m).keys ↔ k2 = k ∨ k2 ∈ m.keys
  | [] => by simp [AxisMap.insert, AxisMap.keys]
  | (k3, v3) :: rest => by
    by_cases h : k3 = k
    · subst h
      simp [AxisMap.insert, AxisMap.keys]
    · rw [show AxisMap.insert k v ((k3, v3) :: rest) =
          (k3, v3) :: AxisMap.insert k v rest by simp [AxisMap.insert, h]]
      simp only [AxisMap.keys, List.map_cons, List.mem_cons]
      rw [show (AxisMap.insert k v rest).map Prod.fst = (AxisMap.insert k v rest).keys from rfl]
      rw [AxisMap.mem_keys_insert k k2 v rest]
      constructor
      · rintro (h1 | h2 | h3)
        · exact Or.inr (Or.inl h1)
        · exact Or.inl h2
        · exact Or.inr (Or.inr h3)
      · rintro (h1 | h2 | h3)
        · exact Or.inr (Or.inl h1)
        · exact Or.inl h2
        · exact Or.inr (Or.inr h3)

lemma AxisMap.mem_keys_erase {α : Type} (k k2 : QualifiedAxisId) (m : AxisMap α) :
    k2 ∈ m.keys → k2 ≠ k → k2 ∈ (AxisMap.erase k m).keys := by
  intro hmem hne
  simp only [AxisMap.keys, List.mem_map] at hmem
  obtain ⟨pr, hpr, hfst⟩ := hmem
  simp only [AxisMap.erase, AxisMap.keys, List.mem_map]
  refine ⟨pr, List.mem_filter.mpr ⟨hpr, ?_⟩, hfst⟩
  simp [hfst, hne]

lemma AxisMap.lookup_isSome_of_mem {α : Type} (k : QualifiedAxisId) :
    ∀ m : AxisMap α, k ∈ m.keys → (AxisMap.lookup k m).isSome = true
  | [] => by simp [AxisMap.keys]
  | (k2, v) :: rest => by
    intro hmem
    by_cases h : k2 = k
    · simp [AxisMap.lookup, h]
    · have hk : k ∈ AxisMap.keys rest := by
        simp only [AxisMap.keys, List.map_cons, List.mem_cons] at hmem
        rcases hmem with h1 | h2
        · exact absurd h1.symm h
        · exact h2
      rw [show AxisMap.lookup k ((k2, v) :: rest) = AxisMap.lookup k rest by
        simp [AxisMap.lookup, h]]
      exact AxisMap.lookup_isSome_of_mem k rest hk

lemma AxisMap.maxKey_eq_none {α : Type} (m : AxisMap α) :
    AxisMap.maxKey m = none ↔ m = [] := by
  cases m with
  | nil => simp [AxisMap.maxKey]
  | cons p rest =>
    simp only [AxisMap.maxKey]
    cases AxisMap.maxKey rest with
    | none => simp
    | some k2 =>
      by_cases h : QualifiedAxisId.lt p.1 k2 <;> simp [h]

lemma newFrom_keys :
    ∀ (sizes : List (QualifiedAxisId × AnyAxisSize)) (res : AxisMap ResolvedAxisSize)
      (unres : AxisMap AxisSizeReference) (r : SlotResolver),
      SlotResolver.newFrom res unres sizes = .ok r →
      ∀ k, (k ∈ AxisMap.keys res ∨ k ∈ AxisMap.keys unres ∨ k ∈ sizes.map Prod.fst) →
        (k ∈ AxisMap.keys r.resolved_axes ∨ k ∈ AxisMap.keys r.unresolved_axes)
  | [], res, unres, r => by
    intro h k hk
    rw [show SlotResolver.newFrom res unres [] = .ok ⟨res, unres⟩ from rfl] at h
    cases h
    simpa using hk
  | (q, sz) :: rest, res, unres, r => by
    intro h k hk
    cases sz with
    | Reference size_ref =>
      by_cases hdup : (AxisMap.lookup q unres).isSome = true
      · rw [show SlotResolver.newFrom res unres ((q, .Reference size_ref) :: rest) =
            .error (.DuplicateId q) by simp [SlotResolver.newFrom, hdup]] at h
        cases h
      · rw [show SlotResolver.newFrom res unres ((q, .Reference size_ref) :: rest) =
            SlotResolver.newFrom res (AxisMap.insert q size_ref unres) rest by
          simp [SlotResolver.newFrom, hdup]] at h
        apply newFrom_keys rest res (AxisMap.insert q size_ref unres) r h k
        rcases hk with h1 | h2 | h3
        · exact Or.inl h1
        · exact Or.inr (Or.inl ((AxisMap.mem_keys_insert q k size_ref unres).mpr (Or.inr h2)))
        · rw [List.map_cons] at h3
          rcases List.mem_cons.mp h3 with hq | hrest
          · exact Or.inr (Or.inl ((AxisMap.mem_keys_insert q k size_ref unres).mpr (Or.inl hq)))
          · exact Or.inr (Or.inr hrest)
    | Parameterized p =>
      by_cases hdup : (AxisMap.lookup q res).isSome = true
      · rw [show SlotResolver.newFrom res unres ((q, .Parameterized p) :: rest) =
            .error (.DuplicateId q) by simp [SlotResolver.newFrom, hdup]] at h
        cases h
      · rw [show SlotResolver.newFrom res unres ((q, .Parameterized p) :: rest) =
            SlotResolver.newFrom (AxisMap.insert q (.Parameterized p) res) unres rest by
          simp [SlotResolver.newFrom, hdup]] at h
        apply newFrom_keys rest (AxisMap.insert q (.Parameterized p) res) unres r h k
        rcases hk with h1 | h2 | h3
        · exact Or.inl ((AxisMap.mem_keys_insert q k _ res).mpr (Or.inr h1))
        · exact Or.inr (Or.inl h2)
        · rw [List.map_cons] at h3
          rcases List.mem_cons.mp h3 with hq | hrest
          · exact Or.inl ((AxisMap.mem_keys_insert q k _ res).mpr (Or.inl hq))
          · exact Or.inr (Or.inr hrest)
    | Fixed f =>
      by_cases hdup : (AxisMap.lookup q res).isSome = true
      · rw [show SlotResolver.newFrom res unres ((q, .Fixed f) :: rest) =
            .error (.DuplicateId q) by simp [SlotResolver.newFrom, hdup]] at h
        cases h
      · rw [show SlotResolver.newFrom res unres ((q, .Fixed f) :: rest) =
            SlotResolver.newFrom (AxisMap.insert q (.Fixed f) res) unres rest by
          simp [SlotResolver.newFrom, hdup]] at h
        apply newFrom_keys rest (AxisMap.insert q (.Fixed f) res) unres r h k
        rcases hk with h1 | h2 | h3
        · exact Or.inl ((AxisMap.mem_keys_insert q k _ res).mpr (Or.inr h1))
        · exact Or.inr (Or.inl h2)
        · rw [List.map_cons] at h3
          rcases List.mem_cons.mp h3 with hq | hrest
          · exact Or.inl ((AxisMap.mem_keys_insert q k _ res).mpr (Or.inl hq))
          · exact Or.inr (Or.inr hrest)

lemma try_resolve_keys :
    ∀ (fuel : Nat) (s : SlotResolver) (cur : QualifiedAxisId)
      (vis : List QualifiedAxisId) (res : ResolvedAxisSize) (s2 : SlotResolver),
      SlotResolver.try_resolve fuel s cur vis = some (.ok (res, s2)) →
      ∀ k, (k ∈ AxisMap.keys s.resolved_axes ∨ k ∈ AxisMap.keys s.unresolved_axes) →
        (k ∈ AxisMap.keys s2.resolved_axes ∨ k ∈ AxisMap.keys s2.unresolved_axes)
  | 0, s, cur, vis, res, s2 => by
    intro h
    cases h
  | fuel + 1, s, cur, vis, res, s2 => by
    intro h k hk
    simp only [SlotResolver.try_resolve] at h
    cases hl : AxisMap.lookup cur s.resolved_axes with
    | some resolved =>
      rw [hl] at h
      simp only [Option.some.injEq, Except.ok.injEq, Prod.mk.injEq] at h
      rw [← h.2]
      exact hk
    | none =>
      rw [hl] at h
      simp only at h
      by_cases hv : cur ∈ vis
      · simp [hv] at h
      · simp only [hv, if_false, ite_false] at h
        cases hu : AxisMap.lookup cur s.unresolved_axes with
        | none =>
          rw [hu] at h
          simp at h
        | some size_ref =>
          rw [hu] at h
          simp only at h
          cases hrec : SlotResolver.try_resolve fuel s size_ref.qualified_axis_id
              (vis ++ [cur]) with
          | none =>
            rw [hrec] at h
            simp at h
          | some out =>
            rw [hrec] at h
            cases out with
            | error e =>
              simp at h
            | ok pr =>
              obtain ⟨res3, s3⟩ := pr
              simp only [Option.some.injEq, Except.ok.injEq, Prod.mk.injEq] at h
              have hrec2 : SlotResolver.try_resolve fuel s size_ref.qualified_axis_id
                  (vis ++ [cur]) = some (.ok (res3, s3)) := hrec
              have hs3 := try_resolve_keys fuel s size_ref.qualified_axis_id
                (vis ++ [cur]) res3 s3 hrec2 k hk
              rw [← h.2]
              rcases hs3 with h1 | h2
              · exact Or.inl ((AxisMap.mem_keys_insert cur k res3 s3.resolved_axes).mpr
                  (Or.inr h1))
              · by_cases hkc : k = cur
                · exact Or.inl ((AxisMap.mem_keys_insert cur k res3 s3.resolved_axes).mpr
                    (Or.inl hkc))
                · exact Or.inr (AxisMap.mem_keys_erase cur k s3.unresolved_axes h2 hkc)

lemma solve_keys :
    ∀ (fuel : Nat) (s : SlotResolver) (m : AxisMap ResolvedAxisSize),
      SlotResolver.solve fuel s = some (.ok m) →
      ∀ k, (k ∈ AxisMap.keys s.resolved_axes ∨ k ∈ AxisMap.keys s.unresolved_axes) →
        k ∈ AxisMap.keys m
  | 0, s, m => by
    intro h
    cases h
  | fuel + 1, s, m => by
    intro h k hk
    simp only [SlotResolver.solve, SlotResolver.step] at h
    cases hm : AxisMap.maxKey s.unresolved_axes with
    | none =>
      rw [hm] at h
      simp only [Option.some.injEq, Except.ok.injEq] at h
      have hempty : s.unresolved_axes = [] := (AxisMap.maxKey_eq_none _).mp hm
      rw [← h]
      rcases hk with h1 | h2
      · exact h1
      · rw [hempty] at h2
        simp [AxisMap.keys] at h2
    | some key =>
      rw [hm] at h
      simp only at h
      cases hr : SlotResolver.try_resolve (fuel + 1) s key [] with
      | none =>
        rw [hr] at h
        simp at h
      | some out =>
        rw [hr] at h
        cases out with
        | error e =>
          simp at h
        | ok pr =>
          obtain ⟨res3, s3⟩ := pr
          simp only at h
          exact solve_keys fuel s3 m h k
            (try_resolve_keys (fuel + 1) s key [] res3 s3 hr k hk)

lemma walkAxes_no_unwrap (tid : String) (m : AxisMap ResolvedAxisSize) (n : Nat) :
    ∀ (axes : List InputAxis) (s : List Nat) (i : Nat),
      (∀ a ∈ axes, a.size.isSome = true →
        (AxisMap.lookup ⟨tid, a.id⟩ m).isSome = true) →
      walkAxes tid m s n axes i ≠ .unwrapNone := by
  intro axes
  induction axes with
  | nil =>
    intro s i _
    simp [walkAxes]
  | cons a rest ih =>
    intro s i hlook
    cases hge : s.get? i with
    | none =>
      have hgeg : s[i]? = none := get?_toElem hge
      simp [walkAxes, hgeg]
    | some e =>
      have hgeg : s[i]? = some e := get?_toElem hge
      cases hsize : a.size with
      | none =>
        rw [show walkAxes tid m s n (a :: rest) i = walkAxes tid m s n rest (i+1) by
          simp [walkAxes, hgeg, hsize]]
        exact ih s (i+1) (fun b hb hbs => hlook b (List.mem_cons_of_mem _ hb) hbs)
      | some sz =>
        have hsome := hlook a (List.mem_cons_self _ _) (by simp [hsize])
        obtain ⟨r, hr⟩ := Option.isSome_iff_exists.mp hsome
        by_cases hc : r.is_compatible_with_extent e = true
        · rw [show walkAxes tid m s n (a :: rest) i = walkAxes tid m s n rest (i+1) by
            simp [walkAxes, hgeg, hsize, hr, hc]]
          exact ih s (i+1) (fun b hb hbs => hlook b (List.mem_cons_of_mem _ hb) hbs)
        · rw [show walkAxes tid m s n (a :: rest) i =
              .err (.IncompatibleAxis ⟨tid, a.id⟩ e i) by
            simp [walkAxes, hgeg, hsize, hr, hc]]
          simp

lemma validateSlotsIn_no_unwrap (m : AxisMap ResolvedAxisSize) :
    ∀ slots : List InputSlot,
      (∀ slot ∈ slots, validateInputSlot m slot ≠ .unwrapNone) →
      validateSlotsIn m slots ≠ .unwrapNone
  | [] => by
    intro _
    simp [validateSlotsIn]
  | slot :: rest => by
    intro hall
    cases hv : validateInputSlot m slot with
    | ok =>
      rw [show validateSlotsIn m (slot :: rest) = validateSlotsIn m rest by
        simp [validateSlotsIn, hv]]
      exact validateSlotsIn_no_unwrap m rest
        (fun s hs => hall s (List.mem_cons_of_mem _ hs))
    | err e =>
      rw [show validateSlotsIn m (slot :: rest) = .err e by simp [validateSlotsIn, hv]]
      simp
    | unwrapNone =>
      exact absurd hv (hall slot (List.mem_cons_self _ _))

lemma validateSlotsOut_no_unwrap (m : AxisMap ResolvedAxisSize) :
    ∀ slots : List OutputSlot,
      (∀ slot ∈ slots, validateOutputSlot m slot ≠ .unwrapNone) →
      validateSlotsOut m slots ≠ .unwrapNone
  | [] => by
    intro _
    simp [validateSlotsOut]
  | slot :: rest => by
    intro hall
    cases hv : validateOutputSlot m slot with
    | ok =>
      rw [show validateSlotsOut m (slot :: rest) = validateSlotsOut m rest by
        simp [validateSlotsOut, hv]]
      exact validateSlotsOut_no_unwrap m rest
        (fun s hs => hall s (List.mem_cons_of_mem _ hs))
    | err e =>
      rw [show validateSlotsOut m (slot :: rest) = .err e by simp [validateSlotsOut, hv]]
      simp
    | unwrapNone =>
      exact absurd hv (hall slot (List.mem_cons_self _ _))

lemma mem_qualIdSizesIn (slots : List InputSlot) (slot : InputSlot) (a : InputAxis)
    (sz : AnyAxisSize) (hslot : slot ∈ slots) (ha : a ∈ slot.tensor_meta.axes)
    (hsz : a.size = some sz) :
    ((⟨slot.tensor_meta.id, a.id⟩ : QualifiedAxisId), sz) ∈ qualIdSizesIn slots := by
  simp only [qualIdSizesIn, List.mem_flatten, List.mem_map]
  refine ⟨_, ⟨slot, hslot, rfl⟩, ?_⟩
  simp only [List.mem_filterMap]
  exact ⟨a, ha, by simp [hsz]⟩

lemma mem_qualIdSizesOut (slots : List OutputSlot) (slot : OutputSlot) (a : OutputAxis)
    (sz : AnyAxisSize) (hslot : slot ∈ slots) (ha : a ∈ slot.tensor_meta.axes)
    (hsz : a.size = some sz) :
    ((⟨slot.tensor_meta.id, a.id⟩ : QualifiedAxisId), sz) ∈ qualIdSizesOut slots := by
  simp only [qualIdSizesOut, List.mem_flatten, List.mem_map]
  refine ⟨_, ⟨slot, hslot, rfl⟩, ?_⟩
  simp only [List.mem_filterMap]
  exact ⟨a, ha, by simp [hsz]⟩

/-- C4: `try_build` and the embedded resolver never hit the one panic site
of the source (the `.unwrap()` on the resolved-size lookup): for every
input, every fuel and every outcome, the build result is never
`unwrapNone`; and the checked version of `is_compatible_with_extent`
(underflowing subtraction and zero divisor modelled as `none`) always
returns `some` of the unchecked result, so the subtraction is only
performed when `extent >= min` and the divisor of the modulo is never
zero. -/
theorem claim_C4_no_panic :
    (∀ (fuel : Nat) (inputs : List InputSlot) (outputs : List OutputSlot),
      ModelInterface.try_build fuel inputs outputs ≠ .unwrapNone)
  ∧ (∀ (r : ResolvedAxisSize) (extent : Nat),
      r.compat_checked extent = some (r.is_compatible_with_extent extent)) := by
  constructor
  · intro fuel inputs outputs h
    unfold ModelInterface.try_build at h
    split at h
    · cases h
    · split at h
      · cases h
      · split at h
        · cases h
        · split at h
          · cases h
          · rename_i resolver hnew
            split at h
            · cases h
            · cases h
            · rename_i size_map hsolve
              split at h
              · cases h
              · rename_i hvalin
                have hBig : ∀ slot ∈ inputs, validateInputSlot size_map slot ≠ .unwrapNone := by
                  intro slot hslot
                  apply walkAxes_no_unwrap
                  intro a ha hsz
                  obtain ⟨sz, hsome⟩ := Option.isSome_iff_exists.mp hsz
                  have hmem := mem_qualIdSizesIn inputs slot a sz hslot ha hsome
                  have hkey : (⟨slot.tensor_meta.id, a.id⟩ : QualifiedAxisId) ∈
                      (qualIdSizesIn inputs ++ qualIdSizesOut outputs).map Prod.fst := by
                    simp only [List.map_append, List.mem_append]
                    exact Or.inl (List.mem_map.mpr ⟨_, hmem, rfl⟩)
                  have hres := newFrom_keys _ [] [] _ hnew _ (Or.inr (Or.inr hkey))
                  have hmap := solve_keys fuel _ _ hsolve _ hres
                  exact AxisMap.lookup_isSome_of_mem _ _ hmap
                exact validateSlotsIn_no_unwrap size_map inputs hBig hvalin
              · rename_i hvalin
                split at h
                · cases h
                · rename_i hvalout
                  have hBig : ∀ slot ∈ outputs,
                      validateOutputSlot size_map slot ≠ .unwrapNone := by
                    intro slot hslot
                    apply walkAxes_no_unwrap
                    intro a ha hsz
                    obtain ⟨sz, hsome⟩ := Option.isSome_iff_exists.mp hsz
                    have hmem := mem_qualIdSizesOut outputs slot a sz hslot ha hsome
                    have hkey : (⟨slot.tensor_meta.id, a.id⟩ : QualifiedAxisId) ∈
                        (qualIdSizesIn inputs ++ qualIdSizesOut outputs).map Prod.fst := by
                      simp only [List.map_append, List.mem_append]
                      exact Or.inr (List.mem_map.mpr ⟨_, hmem, rfl⟩)
                    have hres := newFrom_keys _ [] [] _ hnew _ (Or.inr (Or.inr hkey))
                    have hmap := solve_keys fuel _ _ hsolve _ hres
                    exact AxisMap.lookup_isSome_of_mem _ _ hmap
                  exact validateSlotsOut_no_unwrap size_map outputs hBig hvalout
                · split at h
                  · cases h
                  · split at h
                    · cases h
                    · cases h
  · intro r extent
    cases r with
    | Fixed f => rfl
    | Parameterized p =>
      by_cases hlt : extent < p.min
      · simp [ResolvedAxisSize.compat_checked, ResolvedAxisSize.is_compatible_with_extent, hlt]
      · have hle : p.min ≤ extent := Nat.le_of_not_lt hlt
        have hstep : ¬ p.step.val = 0 := Nat.pos_iff_ne_zero.mp p.step.2
        simp [ResolvedAxisSize.compat_checked, ResolvedAxisSize.is_compatible_with_extent,
          hlt, hle, hstep]

/-- Witness for C4 at a concrete build input and compatibility query. -/
theorem claim_C4_no_panic_witness :
    ModelInterface.try_build 4
        [⟨⟨"x", [.Space "a" (.Fixed 4)], []⟩, [4]⟩]
        [⟨⟨"y", [.Space "b" (.Fixed 2)], []⟩, [2]⟩] ≠ .unwrapNone :=
  claim_C4_no_panic.1 4
    [⟨⟨"x", [.Space "a" (.Fixed 4)], []⟩, [4]⟩]
    [⟨⟨"y", [.Space "b" (.Fixed 2)], []⟩, [2]⟩]
